import Mathlib

/-!
Shallow embedding of the user-hotdeal-bot backend (repository layer,
authentication dependency, articles route, ULID migration).

Modelling conventions:
* `datetime` values are modelled as `Int` (seconds); `datetime` subtraction
  and comparison in the source are exact, so `now - window_start > 60`
  models `now - window_start > timedelta(minutes=1)`.
* The `articles` table is a `List Article`; SQLAlchemy sessions disappear and
  every repository method becomes a pure function from table state to
  table state plus result.
* Python dict field maps passed to `upsert` are modelled by `ArticleData`
  with every `BaseArticle` field present.
* The ULID millisecond timestamp and its 80 random bits are `Nat`s; the
  randomness drawn by `os.urandom` inside `ULID.from_datetime` is an explicit
  parameter of the embedding.
-/

/-- Row of the `articles` table (src/db/models.py, class Article). -/
structure Article where
  id : String
  article_id : Int
  crawler_name : String
  title : String
  category : String
  site_name : String
  board_name : String
  writer_name : String
  url : String
  is_end : Bool
  extra : List (String × String)
  created_at : Int
  updated_at : Int
  deleted_at : Option Int
  deriving Repr, DecidableEq

/-- The `article_data` field map handed to `ArticleRepository.upsert`,
with all `BaseArticle` fields present. -/
structure ArticleData where
  article_id : Int
  crawler_name : String
  title : String
  category : String
  site_name : String
  board_name : String
  writer_name : String
  url : String
  is_end : Bool
  extra : List (String × String)
  deriving Repr, DecidableEq

/-- Natural-key match used by the unique constraint `uix_crawler_article`
and by the upsert conflict target (`crawler_name`, `article_id`). -/
def keyMatches (d : ArticleData) (r : Article) : Bool :=
  r.crawler_name == d.crawler_name && r.article_id == d.article_id

/-- The MySQL/MariaDB branch's `on_duplicate_key_update(**update_values)`
set-clause of `ArticleRepository.upsert` applied to the conflicting row. -/
def mysqlOnDuplicateUpdate (d : ArticleData) (now : Int) (r : Article) : Article :=
  { r with
    title := d.title
    category := d.category
    site_name := d.site_name
    board_name := d.board_name
    writer_name := d.writer_name
    url := d.url
    is_end := d.is_end
    extra := d.extra
    updated_at := now
    deleted_at := none }

/-- The SQLite branch's `on_conflict_do_update(set_=...)` clause of
`ArticleRepository.upsert` (the `excluded.*` values are the incoming
`article_data` values) applied to the conflicting row. -/
def sqliteOnConflictUpdate (d : ArticleData) (now : Int) (r : Article) : Article :=
  { r with
    title := d.title
    category := d.category
    site_name := d.site_name
    board_name := d.board_name
    writer_name := d.writer_name
    url := d.url
    is_end := d.is_end
    extra := d.extra
    updated_at := now
    deleted_at := none }

/-- The freshly inserted row of an `upsert` with no conflicting row:
`id` comes from `generate_ulid`, `created_at`/`updated_at` from `func.now()`,
`deleted_at` starts null. -/
def insertedRow (d : ArticleData) (newId : String) (now : Int) : Article :=
  { id := newId
    article_id := d.article_id
    crawler_name := d.crawler_name
    title := d.title
    category := d.category
    site_name := d.site_name
    board_name := d.board_name
    writer_name := d.writer_name
    url := d.url
    is_end := d.is_end
    extra := d.extra
    created_at := now
    updated_at := now
    deleted_at := none }

/-- Insert into a list kept in descending `id` order (helper for the
`ORDER BY id DESC` of `list_articles`). -/
def insertDesc (a : Article) : List Article → List Article
  | [] => [a]
  | b :: bs => if b.id ≤ a.id then a :: b :: bs else b :: insertDesc a bs

/-- `ORDER BY Article.id DESC` modelled as an insertion sort. -/
def sortByIdDesc : List Article → List Article
  | [] => []
  | a :: as => insertDesc a (sortByIdDesc as)

namespace ArticleRepository

/-- Table-state effect of `ArticleRepository.upsert`: insert the row, or on a
natural-key conflict apply the dialect's update set-clause
(`isMysql` models `_is_mysql_session`). -/
def upsertRows (isMysql : Bool) (rows : List Article) (d : ArticleData)
    (newId : String) (now : Int) : List Article :=
  if rows.any (keyMatches d) then
    rows.map fun r =>
      if keyMatches d r then
        (if isMysql then mysqlOnDuplicateUpdate d now r else sqliteOnConflictUpdate d now r)
      else r
  else
    rows ++ [insertedRow d newId now]

/-- The re-fetch by natural key that ends `ArticleRepository.upsert`
(`select(Article).where(...)` + `scalar_one`). -/
def fetchByKey (rows : List Article) (d : ArticleData) : Option Article :=
  rows.find? (keyMatches d)

/-- `ArticleRepository.upsert`: table state after the statement, plus the
re-fetched row. -/
def upsert (isMysql : Bool) (rows : List Article) (d : ArticleData)
    (newId : String) (now : Int) : List Article × Option Article :=
  let rows' := upsertRows isMysql rows d newId now
  (rows', fetchByKey rows' d)

/-- `ArticleRepository.get_by_id`: lookup by primary key. -/
def get_by_id (rows : List Article) (articleId : String) : Option Article :=
  rows.find? (fun r => r.id == articleId)

/-- `ArticleRepository.get_by_crawler_and_article_id`: lookup by natural key. -/
def get_by_crawler_and_article_id (rows : List Article) (crawlerName : String)
    (articleId : Int) : Option Article :=
  rows.find? (fun r => r.crawler_name == crawlerName && r.article_id == articleId)

/-- Query parameters of `ArticleRepository.list_articles`. -/
structure ListFilters where
  after : Option String
  crawler : Option String
  site : Option String
  is_end : Option Bool
  include_deleted : Bool
  deriving Repr, DecidableEq

/-- The conjunction of `where` clauses that `list_articles` applies to both
its page query and its count query. -/
def matchesFilters (f : ListFilters) (a : Article) : Bool :=
  (match f.after with
   | none => true
   | some c => decide (c < a.id)) &&
  (match f.crawler with
   | none => true
   | some c => a.crawler_name == c) &&
  (match f.site with
   | none => true
   | some s => a.site_name == s) &&
  (match f.is_end with
   | none => true
   | some b => a.is_end == b) &&
  (f.include_deleted || a.deleted_at.isNone)

/-- `ArticleRepository.list_articles`: filter, order by `id` descending,
apply offset/limit; the count query shares the filters but ignores
offset/limit.  Returns (page, total). -/
def list_articles (rows : List Article) (f : ListFilters) (limit offset : Nat) :
    List Article × Nat :=
  let matching := rows.filter (matchesFilters f)
  let sorted := sortByIdDesc matching
  ((sorted.drop offset).take limit, matching.length)

/-- `ArticleRepository.soft_delete`: look up by primary key; absent row means
`False` and no change; otherwise set `deleted_at = now` (the mapped
`updated_at` column auto-refreshes via `onupdate=func.now()`). -/
def soft_delete (rows : List Article) (articleId : String) (now : Int) :
    Bool × List Article :=
  match get_by_id rows articleId with
  | none => (false, rows)
  | some _ =>
    (true, rows.map fun r =>
      if r.id == articleId then { r with deleted_at := some now, updated_at := now } else r)

/-- `ArticleRepository.soft_delete_by_crawler`: same, keyed by
(`crawler_name`, `article_id`). -/
def soft_delete_by_crawler (rows : List Article) (crawlerName : String)
    (articleId : Int) (now : Int) : Bool × List Article :=
  match get_by_crawler_and_article_id rows crawlerName articleId with
  | none => (false, rows)
  | some _ =>
    (true, rows.map fun r =>
      if r.crawler_name == crawlerName && r.article_id == articleId then
        { r with deleted_at := some now, updated_at := now }
      else r)

end ArticleRepository

/-- Row state of `guest_rate_limits` / `api_key_rate_limits` (one identity). -/
structure RateRecord where
  request_count : Int
  window_start : Int
  deriving Repr, DecidableEq

namespace GuestRateLimitRepository

/-- `GuestRateLimitRepository.check_and_increment`, as a function of the
identity's current record (none = no row yet): returns (allowed, new row). -/
def check_and_increment (rec : Option RateRecord) (limit_per_minute : Int)
    (now : Int) : Bool × RateRecord :=
  match rec with
  | none => (true, { request_count := 1, window_start := now })
  | some r =>
    if now - r.window_start > 60 then
      (true, { request_count := 1, window_start := now })
    else if r.request_count ≥ limit_per_minute then
      (false, r)
    else
      (true, { r with request_count := r.request_count + 1 })

end GuestRateLimitRepository

namespace ApiKeyRateLimitRepository

/-- `ApiKeyRateLimitRepository.check_and_increment` — textually the same
algorithm as the guest variant, keyed by `api_key_id`. -/
def check_and_increment (rec : Option RateRecord) (limit_per_minute : Int)
    (now : Int) : Bool × RateRecord :=
  match rec with
  | none => (true, { request_count := 1, window_start := now })
  | some r =>
    if now - r.window_start > 60 then
      (true, { request_count := 1, window_start := now })
    else if r.request_count ≥ limit_per_minute then
      (false, r)
    else
      (true, { r with request_count := r.request_count + 1 })

end ApiKeyRateLimitRepository

namespace SettingsRepository

/-- `SettingsRepository.get`: stored value or the given default. -/
def get (store : List (String × String)) (key : String)
    (default : Option String) : Option String :=
  match store.find? (fun kv => kv.1 == key) with
  | some kv => some kv.2
  | none => default

/-- Python's `str.lower()`, modelled character-wise (identical on the ASCII
strings the settings layer compares against). -/
def pyLower (s : String) : String := String.mk (s.data.map Char.toLower)

/-- The tuple of truthy tokens in `SettingsRepository.get_bool`. -/
def truthyValues : List String := ["true", "1", "yes", "on"]

/-- `SettingsRepository.get_bool`: reads via `get(key)` (no default, so an
absent key yields `None` and then `default`); a present value is lowercased
and tested for membership in the truthy tuple. -/
def get_bool (store : List (String × String)) (key : String)
    (default : Bool) : Bool :=
  match get store key none with
  | none => default
  | some v => truthyValues.contains (pyLower v)

/-- `SettingsRepository.get_int`: absent key or unparsable value falls back
to `default` (`int(value)` with `ValueError` caught). -/
def get_int (store : List (String × String)) (key : String)
    (default : Int) : Int :=
  match get store key none with
  | none => default
  | some v =>
    match v.toInt? with
    | some n => n
    | none => default

end SettingsRepository

/-- Row of the `api_keys` table (src/db/models.py, class ApiKey). -/
structure ApiKey where
  id : Nat
  key : String
  name : String
  rate_limit_per_minute : Int
  is_active : Bool
  created_at : Int
  last_used_at : Option Int
  deriving Repr, DecidableEq

/-- Database state seen by the `verify_api_key_or_guest` dependency:
the four tables it touches.  Rate-limit tables are association lists from
identity to record. -/
structure Db where
  api_keys : List ApiKey
  api_key_rate_limits : List (Nat × RateRecord)
  guest_rate_limits : List (String × RateRecord)
  settings : List (String × String)
  deriving Repr, DecidableEq

/-- Update-or-append on an association list (the flush of a mutated or
newly added rate-limit row). -/
def setAssoc {α β : Type} [BEq α] (l : List (α × β)) (k : α) (v : β) :
    List (α × β) :=
  if l.any (fun p => p.1 == k) then
    l.map fun p => if p.1 == k then (k, v) else p
  else
    l ++ [(k, v)]

/-- Association-list lookup (the `select ... where` of the rate-limit repos). -/
def lookupAssoc {α β : Type} [BEq α] (l : List (α × β)) (k : α) : Option β :=
  (l.find? (fun p => p.1 == k)).map (fun p => p.2)

namespace ApiKeyRepository

/-- `ApiKeyRepository.get_by_key`: the key string must match and the row must
be active. -/
def get_by_key (keys : List ApiKey) (key : String) : Option ApiKey :=
  keys.find? (fun k => k.key == key && k.is_active)

/-- `ApiKeyRepository.update_last_used`: sets `last_used_at = now` on the row
`get_by_key` resolves, no-op otherwise. -/
def update_last_used (keys : List ApiKey) (key : String) (now : Int) :
    List ApiKey :=
  match get_by_key keys key with
  | none => keys
  | some _ =>
    keys.map fun k =>
      if k.key == key && k.is_active then { k with last_used_at := some now } else k

end ApiKeyRepository

/-- Error raised by `HTTPException(status_code=..., detail=...)`. -/
structure HttpError where
  status : Nat
  detail : String
  deriving Repr, DecidableEq

/-- Python truthiness of the optional `x_api_key` header (`if x_api_key:`):
`None` and the empty string are falsy. -/
def pyTruthy : Option String → Bool
  | none => false
  | some s => !(s == "")

/-- The well-known settings keys (class Settings constants). -/
def GUEST_ACCESS_ENABLED : String := "guest_access_enabled"

def GUEST_RATE_LIMIT_PER_MINUTE : String := "guest_rate_limit_per_minute"

/-- `verify_api_key_or_guest` (src/api/deps.py): returns the authenticated
identity (the key string, or `none` for a guest) or an `HttpError`, together
with the database state after the dependency ran.  `client_ip` models
`request.client.host` (`none` when `request.client` is absent). -/
def verify_api_key_or_guest (db : Db) (client_ip : Option String)
    (x_api_key : Option String) (now : Int) :
    Except HttpError (Option String) × Db :=
  if pyTruthy x_api_key then
    let k := x_api_key.getD ""
    match ApiKeyRepository.get_by_key db.api_keys k with
    | none => (Except.error ⟨401, "Invalid API key"⟩, db)
    | some ak =>
      let res := ApiKeyRateLimitRepository.check_and_increment
        (lookupAssoc db.api_key_rate_limits ak.id) ak.rate_limit_per_minute now
      if res.1 then
        let db1 := { db with
          api_key_rate_limits := setAssoc db.api_key_rate_limits ak.id res.2 }
        let db2 := { db1 with
          api_keys := ApiKeyRepository.update_last_used db1.api_keys k now }
        (Except.ok (some k), db2)
      else
        (Except.error ⟨429, "Rate limit exceeded. Maximum " ++
          toString ak.rate_limit_per_minute ++ " requests per minute."⟩, db)
  else
    if !(SettingsRepository.get_bool db.settings GUEST_ACCESS_ENABLED true) then
      (Except.error ⟨401, "API key required. Guest access is disabled."⟩, db)
    else
      let ip := client_ip.getD "unknown"
      let lim := SettingsRepository.get_int db.settings GUEST_RATE_LIMIT_PER_MINUTE 30
      let res := GuestRateLimitRepository.check_and_increment
        (lookupAssoc db.guest_rate_limits ip) lim now
      if res.1 then
        ({ fst := Except.ok none,
           snd := { db with guest_rate_limits := setAssoc db.guest_rate_limits ip res.2 } })
      else
        (Except.error ⟨429, "Rate limit exceeded. Maximum " ++
          toString lim ++ " requests per minute for guests."⟩, db)

/-- Pagination metadata of the articles list response. -/
structure ArticleListMeta where
  total : Nat
  limit : Nat
  offset : Nat
  has_more : Bool
  deriving Repr, DecidableEq

namespace ArticlesRoute

/-- `GET /articles` handler body (src/api/routes/articles.py): delegates to
the repository and computes `has_more = offset + len(articles) < total`. -/
def list_articles (rows : List Article) (f : ArticleRepository.ListFilters)
    (limit offset : Nat) : List Article × ArticleListMeta :=
  let res := ArticleRepository.list_articles rows f limit offset
  (res.1,
   { total := res.2
     limit := limit
     offset := offset
     has_more := decide (offset + res.1.length < res.2) })

end ArticlesRoute

/-- Crockford base32 alphabet used by the ULID string encoding. -/
def CROCKFORD : List Char :=
  ['0', '1', '2', '3', '4', '5', '6', '7', '8', '9', 'A', 'B', 'C', 'D', 'E', 'F',
   'G', 'H', 'J', 'K', 'M', 'N', 'P', 'Q', 'R', 'S', 'T', 'V', 'W', 'X', 'Y', 'Z']

/-- Digit-to-character map of the encoding. -/
def crockfordChar (d : Nat) : Char := CROCKFORD.getD d '0'

/-- Fixed-width base-32 digits of `n`, most significant first. -/
def base32Digits : Nat → Nat → List Nat
  | 0, _ => []
  | k + 1, n => n / 32 ^ k :: base32Digits k (n % 32 ^ k)

/-- The 26 characters of `str(ULID(...))` for a ULID whose 48-bit millisecond
timestamp is `ts` and whose 80 random bits are `rand`. -/
def ulidChars (ts rand : Nat) : List Char :=
  (base32Digits 26 (ts * 2 ^ 80 + rand)).map crockfordChar

/-- `str(ULID.from_timestamp(...))` with explicit randomness: the library
fills the low 80 bits from `os.urandom(10)`, modelled as the `rand`
parameter. -/
def ulidString (ts rand : Nat) : String := String.mk (ulidChars ts rand)

/-- Identifier generation of the ULID migration's `upgrade` (both dialect
branches): `ULID.from_datetime(created_at)` when `created_at` is present,
else `ULID()` from the current time.  Timestamps are milliseconds. -/
def migrationNewId (createdAtMs : Option Nat) (nowMs rand : Nat) : String :=
  match createdAtMs with
  | some t => ulidString t rand
  | none => ulidString nowMs rand

/-- Repeated `check_and_increment` calls for one identity at a fixed time,
starting with no row (the request sequence of the fixed-window scenario). -/
def iterateCheck (L now : Int) : Nat → Option RateRecord
  | 0 => none
  | n + 1 => some (GuestRateLimitRepository.check_and_increment (iterateCheck L now n) L now).2

/-- The default query of `GET /articles`: no cursor, no filters,
`include_deleted = false`. -/
def defaultFilters : ArticleRepository.ListFilters :=
  { after := none, crawler := none, site := none, is_end := none, include_deleted := false }

/-- A concrete non-deleted article used in scenario instantiations. -/
def row105 (i : Nat) : Article :=
  { id := toString i
    article_id := Int.ofNat i
    crawler_name := "fmkorea"
    title := "deal"
    category := ""
    site_name := "fm"
    board_name := "hotdeal"
    writer_name := "w"
    url := "http://x"
    is_end := false
    extra := []
    created_at := 0
    updated_at := 0
    deleted_at := none }

/-- 105 matching, non-deleted articles (the pagination scenario of §8). -/
def rows105 : List Article := (List.range 105).map row105

/-- A soft-deleted row used in the upsert-resurrection scenario. -/
def sampleDeletedRow : Article :=
  { id := "01A"
    article_id := 7
    crawler_name := "fmkorea"
    title := "old title"
    category := ""
    site_name := "fm"
    board_name := "hotdeal"
    writer_name := "w"
    url := "http://old"
    is_end := false
    extra := []
    created_at := 0
    updated_at := 0
    deleted_at := some 3 }

/-- An upsert payload carrying `sampleDeletedRow`'s natural key. -/
def sampleData : ArticleData :=
  { article_id := 7
    crawler_name := "fmkorea"
    title := "new title"
    category := "food"
    site_name := "fm"
    board_name := "hotdeal"
    writer_name := "w2"
    url := "http://new"
    is_end := true
    extra := [] }

/-- A database with no rows in any of the four tables. -/
def emptyDb : Db :=
  { api_keys := [], api_key_rate_limits := [], guest_rate_limits := [], settings := [] }

/-- Frame predicate: every `articles` column other than `deleted_at` and the
auto-refreshed `updated_at` agrees between `r` and `r'`. -/
def FrameExceptDelete (r r' : Article) : Prop :=
  r'.id = r.id ∧ r'.article_id = r.article_id ∧ r'.crawler_name = r.crawler_name ∧
  r'.title = r.title ∧ r'.category = r.category ∧ r'.site_name = r.site_name ∧
  r'.board_name = r.board_name ∧ r'.writer_name = r.writer_name ∧ r'.url = r.url ∧
  r'.is_end = r.is_end ∧ r'.extra = r.extra ∧ r'.created_at = r.created_at

/-! ## Helper lemmas -/

theorem length_insertDesc (a : Article) (l : List Article) :
    (insertDesc a l).length = l.length + 1 := by
  induction l with
  | nil => rfl
  | cons b bs ih =>
    simp only [insertDesc]
    split
    · simp
    · simp [ih]

theorem length_sortByIdDesc (l : List Article) :
    (sortByIdDesc l).length = l.length := by
  induction l with
  | nil => rfl
  | cons a as ih => simp [sortByIdDesc, length_insertDesc, ih]

theorem mem_insertDesc {x a : Article} {l : List Article} :
    x ∈ insertDesc a l ↔ x = a ∨ x ∈ l := by
  induction l with
  | nil => simp [insertDesc]
  | cons b bs ih =>
    simp only [insertDesc]
    split
    · simp
    · simp [ih]
      tauto

theorem mem_sortByIdDesc {x : Article} {l : List Article} :
    x ∈ sortByIdDesc l ↔ x ∈ l := by
  induction l with
  | nil => simp [sortByIdDesc]
  | cons a as ih => simp [sortByIdDesc, mem_insertDesc, ih]

theorem find?_map_pres {α : Type} {p : α → Bool} {f : α → α}
    (h : ∀ a, p (f a) = p a) (l : List α) :
    (l.map f).find? p = (l.find? p).map f := by
  induction l with
  | nil => rfl
  | cons a as ih =>
    simp only [List.map_cons, List.find?_cons]
    rw [h a]
    cases hp : p a <;> simp [ih]

theorem countP_map_pres {α : Type} {p : α → Bool} {f : α → α}
    (h : ∀ a, p (f a) = p a) (l : List α) :
    (l.map f).countP p = l.countP p := by
  rw [List.countP_map]
  exact List.countP_congr fun a _ => by simp [Function.comp, h a]

/-- The default `GET /articles` filter reduces to the soft-delete predicate. -/
theorem matchesFilters_default (a : Article) :
    ArticleRepository.matchesFilters defaultFilters a = a.deleted_at.isNone := by
  simp [ArticleRepository.matchesFilters, defaultFilters]

/-! ## C2 — `SettingsRepository.get_bool` -/

/-- C2 (counterexample): a stored value `"maybe"` read with `default = true`
yields `false`, not the caller-supplied default `true` — `get_bool` falls
back to the default only when the key is absent, never for a stored
non-truthy string. -/
theorem get_bool_stored_nontruthy_cex :
    SettingsRepository.get_bool [("k", "maybe")] "k" true = false := by decide

/-- C2 (amended): `get_bool` returns `true` exactly when the stored string is
case-insensitively one of `"true"`, `"1"`, `"yes"`, `"on"`; any other stored
string yields `false`, and the caller-supplied default is returned only when
the key is absent. -/
theorem get_bool_spec :
    ∀ (store : List (String × String)) (key : String) (d : Bool) (v : String),
      (SettingsRepository.get store key none = none →
        SettingsRepository.get_bool store key d = d) ∧
      (SettingsRepository.get store key none = some v →
        (SettingsRepository.get_bool store key d = true ↔
          SettingsRepository.pyLower v ∈ SettingsRepository.truthyValues)) := by
  intro store key d v
  refine ⟨fun h => ?_, fun h => ?_⟩
  · simp [SettingsRepository.get_bool, h]
  · simp [SettingsRepository.get_bool, h, List.elem_iff]

/-- C2 witness: a stored `"YES"` is truthy under `default = false`, and an
absent key returns the default. -/
theorem get_bool_spec_witness :
    SettingsRepository.get_bool [("k", "YES")] "k" false = true ∧
    SettingsRepository.get_bool [("k", "YES")] "absent" true = true := by
  refine ⟨?_, ?_⟩
  · exact ((get_bool_spec [("k", "YES")] "k" false "YES").2 (by decide)).mpr (by decide)
  · exact (get_bool_spec [("k", "YES")] "absent" true "YES").1 (by decide)

/-! ## C3 / C9 — fixed-window rate limiting -/

/-- C3: both `check_and_increment` implementations realise a fixed 60-second
window: a record whose window started more than 60 seconds ago is reset to
count 1 at the new window start and the call allows; a current-window record
at or above the limit denies without incrementing; otherwise the count is
incremented and the call allows.  With limit 5, five calls starting from no
record leave count 5 and the 6th call within the window is denied; a call 61
seconds after the window start is allowed and resets the count to 1. -/
theorem check_and_increment_fixed_window :
    ∀ (r : RateRecord) (L now : Int),
      (now - r.window_start > 60 →
        GuestRateLimitRepository.check_and_increment (some r) L now =
          (true, ⟨1, now⟩) ∧
        ApiKeyRateLimitRepository.check_and_increment (some r) L now =
          (true, ⟨1, now⟩)) ∧
      (¬ now - r.window_start > 60 → r.request_count ≥ L →
        GuestRateLimitRepository.check_and_increment (some r) L now = (false, r) ∧
        ApiKeyRateLimitRepository.check_and_increment (some r) L now = (false, r)) ∧
      (¬ now - r.window_start > 60 → r.request_count < L →
        GuestRateLimitRepository.check_and_increment (some r) L now =
          (true, ⟨r.request_count + 1, r.window_start⟩) ∧
        ApiKeyRateLimitRepository.check_and_increment (some r) L now =
          (true, ⟨r.request_count + 1, r.window_start⟩)) ∧
      (iterateCheck 5 now 5 = some ⟨5, now⟩ ∧
        (GuestRateLimitRepository.check_and_increment (iterateCheck 5 now 5) 5 now).1 =
          false) ∧
      (∀ c : Int,
        GuestRateLimitRepository.check_and_increment (some ⟨c, now⟩) L (now + 61) =
          (true, ⟨1, now + 61⟩) ∧
        ApiKeyRateLimitRepository.check_and_increment (some ⟨c, now⟩) L (now + 61) =
          (true, ⟨1, now + 61⟩)) := by
  intro r L now
  refine ⟨fun h => ?_, fun h h2 => ?_, fun h h2 => ?_, ⟨?_, ?_⟩, fun c => ?_⟩
  · constructor <;>
      simp [GuestRateLimitRepository.check_and_increment,
        ApiKeyRateLimitRepository.check_and_increment, h]
  · constructor <;>
      simp [GuestRateLimitRepository.check_and_increment,
        ApiKeyRateLimitRepository.check_and_increment, h, h2]
  · constructor <;>
      simp [GuestRateLimitRepository.check_and_increment,
        ApiKeyRateLimitRepository.check_and_increment, h, h2]
  · simp [iterateCheck, GuestRateLimitRepository.check_and_increment]
  · simp [iterateCheck, GuestRateLimitRepository.check_and_increment]
  · constructor <;>
      simp [GuestRateLimitRepository.check_and_increment,
        ApiKeyRateLimitRepository.check_and_increment]

/-- C3 witness: with limit 5 a full window (count 5, window start 0) denies a
call at time 0 without incrementing, and a call at time 61 resets to count 1. -/
theorem check_and_increment_fixed_window_witness :
    (GuestRateLimitRepository.check_and_increment (some ⟨5, 0⟩) 5 0 = (false, ⟨5, 0⟩) ∧
      ApiKeyRateLimitRepository.check_and_increment (some ⟨5, 0⟩) 5 0 = (false, ⟨5, 0⟩)) ∧
    (GuestRateLimitRepository.check_and_increment (some ⟨5, 0⟩) 5 61 = (true, ⟨1, 61⟩) ∧
      ApiKeyRateLimitRepository.check_and_increment (some ⟨5, 0⟩) 5 61 = (true, ⟨1, 61⟩)) :=
  ⟨(check_and_increment_fixed_window ⟨5, 0⟩ 5 0).2.1 (by decide) (by decide),
   (check_and_increment_fixed_window ⟨5, 0⟩ 5 0).2.2.2.2 5⟩

/-- C9: a `check_and_increment` call that finds no record creates one with
count 1 and allows, and one that finds an expired window resets to count 1
and allows — in both repositories, for every limit including 0; with limit 0
the stored count 1 exceeds the limit. -/
theorem check_and_increment_first_allowed :
    ∀ (L now : Int) (r : RateRecord),
      GuestRateLimitRepository.check_and_increment none L now = (true, ⟨1, now⟩) ∧
      ApiKeyRateLimitRepository.check_and_increment none L now = (true, ⟨1, now⟩) ∧
      (now - r.window_start > 60 →
        GuestRateLimitRepository.check_and_increment (some r) L now = (true, ⟨1, now⟩) ∧
        ApiKeyRateLimitRepository.check_and_increment (some r) L now = (true, ⟨1, now⟩)) ∧
      ((GuestRateLimitRepository.check_and_increment none 0 now).1 = true ∧
        (GuestRateLimitRepository.check_and_increment none 0 now).2.request_count > 0) := by
  intro L now r
  refine ⟨rfl, rfl, fun h => ?_, by simp [GuestRateLimitRepository.check_and_increment]⟩
  constructor <;>
    simp [GuestRateLimitRepository.check_and_increment,
      ApiKeyRateLimitRepository.check_and_increment, h]

/-- C9 witness: with limit 0 the first call allows and stores count 1, and an
expired-window record (window start −100, now 0) is reset to count 1. -/
theorem check_and_increment_first_allowed_witness :
    GuestRateLimitRepository.check_and_increment none 0 0 = (true, ⟨1, 0⟩) ∧
    GuestRateLimitRepository.check_and_increment (some ⟨3, -100⟩) 0 0 = (true, ⟨1, 0⟩) :=
  ⟨(check_and_increment_first_allowed 0 0 ⟨3, -100⟩).1,
   ((check_and_increment_first_allowed 0 0 ⟨3, -100⟩).2.2.1 (by decide)).1⟩

/-! ## C10 — soft delete frame -/

/-- C10: `soft_delete` and `soft_delete_by_crawler` return `false` and leave
the table unchanged exactly when no row matches the given key; when a row
matches — including one already soft-deleted — they return `true`, overwrite
`deleted_at` with the current time (refreshing `updated_at` via `onupdate`),
and change no other column of any row. -/
theorem soft_delete_frame_spec :
    ∀ (rows : List Article) (aid : String) (cn : String) (an : Int) (now : Int),
      ((ArticleRepository.soft_delete rows aid now).1 = false ↔
        ArticleRepository.get_by_id rows aid = none) ∧
      (ArticleRepository.get_by_id rows aid = none →
        (ArticleRepository.soft_delete rows aid now).2 = rows) ∧
      (ArticleRepository.soft_delete rows aid now).2.length = rows.length ∧
      (∀ (i : Nat) (r : Article), rows[i]? = some r →
        ∃ r', ((ArticleRepository.soft_delete rows aid now).2)[i]? = some r' ∧
          FrameExceptDelete r r' ∧
          (r.id == aid → r'.deleted_at = some now ∧ r'.updated_at = now) ∧
          (¬ r.id == aid → r' = r)) ∧
      ((ArticleRepository.soft_delete_by_crawler rows cn an now).1 = false ↔
        ArticleRepository.get_by_crawler_and_article_id rows cn an = none) ∧
      (ArticleRepository.get_by_crawler_and_article_id rows cn an = none →
        (ArticleRepository.soft_delete_by_crawler rows cn an now).2 = rows) ∧
      (ArticleRepository.soft_delete_by_crawler rows cn an now).2.length = rows.length ∧
      (∀ (i : Nat) (r : Article), rows[i]? = some r →
        ∃ r', ((ArticleRepository.soft_delete_by_crawler rows cn an now).2)[i]? = some r' ∧
          FrameExceptDelete r r' ∧
          (r.crawler_name == cn && r.article_id == an →
            r'.deleted_at = some now ∧ r'.updated_at = now) ∧
          (¬ (r.crawler_name == cn && r.article_id == an) → r' = r)) := by
  intro rows aid cn an now
  refine ⟨?_, ?_, ?_, ?_, ?_, ?_, ?_, ?_⟩
  · cases h : ArticleRepository.get_by_id rows aid <;>
      simp [ArticleRepository.soft_delete, h]
  · intro h
    simp [ArticleRepository.soft_delete, h]
  · cases h : ArticleRepository.get_by_id rows aid <;>
      simp [ArticleRepository.soft_delete, h]
  · intro i r hir
    cases h : ArticleRepository.get_by_id rows aid with
    | none =>
      refine ⟨r, by simp [ArticleRepository.soft_delete, h, hir], ?_, ?_, fun _ => rfl⟩
      · exact ⟨rfl, rfl, rfl, rfl, rfl, rfl, rfl, rfl, rfl, rfl, rfl, rfl⟩
      · intro hid
        have hmem : r ∈ rows := List.getElem?_mem hir
        have := List.find?_eq_none.mp h r hmem
        simp [hid] at this
    | some a =>
      by_cases hid : (r.id == aid) = true
      · have hid2 : r.id = aid := by simpa using hid
        refine ⟨{ r with deleted_at := some now, updated_at := now }, ?_, ?_, ?_, ?_⟩
        · simp [ArticleRepository.soft_delete, h, List.getElem?_map, hir, hid2]
        · exact ⟨rfl, rfl, rfl, rfl, rfl, rfl, rfl, rfl, rfl, rfl, rfl, rfl⟩
        · exact fun _ => ⟨rfl, rfl⟩
        · intro hc; exact absurd hid hc
      · have hid2 : ¬ r.id = aid := by simpa using hid
        refine ⟨r, ?_, ?_, ?_, fun _ => rfl⟩
        · simp [ArticleRepository.soft_delete, h, List.getElem?_map, hir, hid2]
        · exact ⟨rfl, rfl, rfl, rfl, rfl, rfl, rfl, rfl, rfl, rfl, rfl, rfl⟩
        · intro hc; exact absurd hc hid
  · cases h : ArticleRepository.get_by_crawler_and_article_id rows cn an <;>
      simp [ArticleRepository.soft_delete_by_crawler, h]
  · intro h
    simp [ArticleRepository.soft_delete_by_crawler, h]
  · cases h : ArticleRepository.get_by_crawler_and_article_id rows cn an <;>
      simp [ArticleRepository.soft_delete_by_crawler, h]
  · intro i r hir
    cases h : ArticleRepository.get_by_crawler_and_article_id rows cn an with
    | none =>
      refine ⟨r, by simp [ArticleRepository.soft_delete_by_crawler, h, hir], ?_, ?_,
        fun _ => rfl⟩
      · exact ⟨rfl, rfl, rfl, rfl, rfl, rfl, rfl, rfl, rfl, rfl, rfl, rfl⟩
      · intro hid
        have hmem : r ∈ rows := List.getElem?_mem hir
        have := List.find?_eq_none.mp h r hmem
        simp [hid] at this
    | some a =>
      by_cases hid : (r.crawler_name == cn && r.article_id == an) = true
      · have hid2 : r.crawler_name = cn ∧ r.article_id = an := by simpa using hid
        refine ⟨{ r with deleted_at := some now, updated_at := now }, ?_, ?_, ?_, ?_⟩
        · simp [ArticleRepository.soft_delete_by_crawler, h, List.getElem?_map, hir,
            hid2.1, hid2.2]
        · exact ⟨rfl, rfl, rfl, rfl, rfl, rfl, rfl, rfl, rfl, rfl, rfl, rfl⟩
        · exact fun _ => ⟨rfl, rfl⟩
        · intro hc; exact absurd hid hc
      · have hid2 : ¬ (r.crawler_name = cn ∧ r.article_id = an) := by
          intro hc
          exact hid (by simp [hc.1, hc.2])
        refine ⟨r, ?_, ?_, ?_, fun _ => rfl⟩
        · have hcond : (r.crawler_name == cn && r.article_id == an) = false := by
            simpa using hid
          simp only [ArticleRepository.soft_delete_by_crawler, h, List.getElem?_map, hir,
            Option.map_some', hcond, Bool.false_eq_true, if_false]
        · exact ⟨rfl, rfl, rfl, rfl, rfl, rfl, rfl, rfl, rfl, rfl, rfl, rfl⟩
        · intro hc; exact absurd hc hid

/-- C10 witness: soft-deleting the already-deleted `sampleDeletedRow` again
at time 9 overwrites `deleted_at` with 9 and keeps the title. -/
theorem soft_delete_frame_witness :
    ∃ r', ((ArticleRepository.soft_delete [sampleDeletedRow] "01A" 9).2)[0]? = some r' ∧
      r'.deleted_at = some 9 ∧ r'.title = sampleDeletedRow.title := by
  obtain ⟨r', h1, hframe, himp, _⟩ :=
    (soft_delete_frame_spec [sampleDeletedRow] "01A" "fmkorea" 7 9).2.2.2.1
      0 sampleDeletedRow rfl
  exact ⟨r', h1, (himp (by decide)).1, hframe.2.2.2.1⟩

/-! ## C1 — upsert un-deletes on conflict -/

/-- One mapped row of the conflict branch of `upsertRows` keeps its natural
key, whichever dialect ran. -/
theorem keyMatches_upsertStep (isMysql : Bool) (d d2 : ArticleData) (now : Int)
    (a : Article) :
    keyMatches d (if keyMatches d2 a then
        (if isMysql then mysqlOnDuplicateUpdate d2 now a else sqliteOnConflictUpdate d2 now a)
      else a) = keyMatches d a := by
  by_cases hk : keyMatches d2 a = true
  · rw [if_pos hk]
    cases isMysql <;> rfl
  · rw [if_neg hk]

/-- C1: when an upsert hits an existing natural key (either dialect branch),
every row still carrying that key afterwards — in particular the one the
upsert re-fetches — has `deleted_at = null`, and that re-fetched row is
returned by `list_articles` with the default `include_deleted = false`
filters (for any page size covering the table). -/
theorem upsert_clears_deleted :
    ∀ (isMysql : Bool) (rows : List Article) (d : ArticleData) (newId : String) (now : Int),
      rows.any (keyMatches d) = true →
      (∀ r' ∈ ArticleRepository.upsertRows isMysql rows d newId now,
        keyMatches d r' = true → r'.deleted_at = none) ∧
      (∀ r', ArticleRepository.fetchByKey
          (ArticleRepository.upsertRows isMysql rows d newId now) d = some r' →
        r'.deleted_at = none ∧
        ∀ limit, (ArticleRepository.upsertRows isMysql rows d newId now).length ≤ limit →
          r' ∈ (ArticleRepository.list_articles
            (ArticleRepository.upsertRows isMysql rows d newId now)
            defaultFilters limit 0).1) := by
  intro isMysql rows d newId now hany
  have hupd : ∀ r' ∈ ArticleRepository.upsertRows isMysql rows d newId now,
      keyMatches d r' = true → r'.deleted_at = none := by
    intro r' hmem hkey
    simp only [ArticleRepository.upsertRows, hany, if_true] at hmem
    obtain ⟨r, hr, hfr⟩ := List.mem_map.mp hmem
    by_cases hk : keyMatches d r = true
    · rw [if_pos hk] at hfr
      cases isMysql <;> simp [← hfr, mysqlOnDuplicateUpdate, sqliteOnConflictUpdate]
    · rw [if_neg hk] at hfr
      rw [← hfr] at hkey
      exact absurd hkey hk
  refine ⟨hupd, ?_⟩
  intro r' hfetch
  have hmem : r' ∈ ArticleRepository.upsertRows isMysql rows d newId now :=
    List.mem_of_find?_eq_some hfetch
  have hkey : keyMatches d r' = true := List.find?_some hfetch
  have hdel : r'.deleted_at = none := hupd r' hmem hkey
  refine ⟨hdel, ?_⟩
  intro limit hlim
  have hmatch : ArticleRepository.matchesFilters defaultFilters r' = true := by
    rw [matchesFilters_default, hdel]
    rfl
  have hfil : r' ∈ (ArticleRepository.upsertRows isMysql rows d newId now).filter
      (ArticleRepository.matchesFilters defaultFilters) :=
    List.mem_filter.mpr ⟨hmem, hmatch⟩
  have hsort := mem_sortByIdDesc.mpr hfil
  simp only [ArticleRepository.list_articles, List.drop_zero]
  rw [List.take_of_length_le]
  · exact hsort
  · rw [length_sortByIdDesc]
    exact le_trans (List.length_filter_le _ _) hlim

/-- C1 witness: upserting `sampleData` over the soft-deleted
`sampleDeletedRow` (MySQL branch) yields a row with `deleted_at = null` that
the default listing returns. -/
theorem upsert_clears_deleted_witness :
    (mysqlOnDuplicateUpdate sampleData 5 sampleDeletedRow).deleted_at = none ∧
    mysqlOnDuplicateUpdate sampleData 5 sampleDeletedRow ∈
      (ArticleRepository.list_articles
        (ArticleRepository.upsertRows true [sampleDeletedRow] sampleData "01B" 5)
        defaultFilters 1 0).1 := by
  have h := (upsert_clears_deleted true [sampleDeletedRow] sampleData "01B" 5 (by decide)).2
    (mysqlOnDuplicateUpdate sampleData 5 sampleDeletedRow) (by decide)
  exact ⟨h.1, h.2 1 (by decide)⟩

/-! ## C6 — upsert twice keeps a single row -/

/-- Pointwise-equal predicates find the same element. -/
theorem find?_congr_pw {α : Type} {p q : α → Bool} (h : ∀ a, p a = q a)
    (l : List α) : l.find? p = l.find? q := by
  induction l with
  | nil => rfl
  | cons a as ih =>
    cases hpa : p a
    · rw [List.find?_cons_of_neg _ (by simp [hpa]),
        List.find?_cons_of_neg _ (by simp [← h a, hpa]), ih]
    · rw [List.find?_cons_of_pos _ hpa, List.find?_cons_of_pos _ (by rw [← h a, hpa])]

/-- The inserted row of a no-conflict upsert carries the upserted key. -/
theorem keyMatches_insertedRow (d : ArticleData) (newId : String) (now : Int) :
    keyMatches d (insertedRow d newId now) = true := by
  simp [keyMatches, insertedRow]

/-- After one upsert the table holds exactly one row with the upserted key,
provided it held at most one before (the `uix_crawler_article` constraint). -/
theorem countP_upsertRows (isMysql : Bool) (rows : List Article) (d : ArticleData)
    (newId : String) (now : Int) (h : rows.countP (keyMatches d) ≤ 1) :
    (ArticleRepository.upsertRows isMysql rows d newId now).countP (keyMatches d) = 1 := by
  by_cases hany : rows.any (keyMatches d) = true
  · simp only [ArticleRepository.upsertRows, hany, if_true]
    rw [countP_map_pres (fun a => keyMatches_upsertStep isMysql d d now a)]
    obtain ⟨a, hmem, hpa⟩ := List.any_eq_true.mp hany
    have hpos : 0 < rows.countP (keyMatches d) :=
      List.countP_pos_iff.mpr ⟨a, hmem, hpa⟩
    omega
  · have hany' : rows.any (keyMatches d) = false := by
      cases hv : rows.any (keyMatches d)
      · rfl
      · exact absurd hv hany
    simp only [ArticleRepository.upsertRows, hany', Bool.false_eq_true, if_false]
    rw [List.countP_append]
    have hzero : rows.countP (keyMatches d) = 0 :=
      List.countP_eq_zero.mpr (by
        intro a hmem hpa
        exact (List.any_eq_false.mp hany' a hmem) hpa)
    simp [hzero, List.countP_cons, keyMatches_insertedRow d newId now]

/-- C6: two upserts carrying the same natural key, on a table satisfying the
unique constraint, leave exactly one row with that key; the second upsert's
re-fetched row keeps the `id` the first upsert returned and has
`updated_at` refreshed to the second call's time. -/
theorem upsert_twice_single_row :
    ∀ (isMysql : Bool) (rows : List Article) (d1 d2 : ArticleData)
      (id1 id2 : String) (t1 t2 : Int),
      d2.crawler_name = d1.crawler_name → d2.article_id = d1.article_id →
      rows.countP (keyMatches d1) ≤ 1 →
      (ArticleRepository.upsertRows isMysql
          (ArticleRepository.upsertRows isMysql rows d1 id1 t1) d2 id2 t2).countP
        (keyMatches d1) = 1 ∧
      ∃ r1 r2,
        ArticleRepository.fetchByKey
          (ArticleRepository.upsertRows isMysql rows d1 id1 t1) d1 = some r1 ∧
        ArticleRepository.fetchByKey
          (ArticleRepository.upsertRows isMysql
            (ArticleRepository.upsertRows isMysql rows d1 id1 t1) d2 id2 t2) d2 = some r2 ∧
        r2.id = r1.id ∧ r2.updated_at = t2 := by
  intro isMysql rows d1 d2 id1 id2 t1 t2 hc ha h
  have hk12 : ∀ r, keyMatches d2 r = keyMatches d1 r := by
    intro r
    simp [keyMatches, hc, ha]
  set rows1 := ArticleRepository.upsertRows isMysql rows d1 id1 t1 with hrows1
  have h1 : rows1.countP (keyMatches d1) = 1 := countP_upsertRows isMysql rows d1 id1 t1 h
  have h1' : rows1.countP (keyMatches d2) = 1 := by
    rw [List.countP_congr (fun a _ => by rw [hk12 a])]
    exact h1
  have hany2 : rows1.any (keyMatches d2) = true := by
    obtain ⟨a, hmem, hpa⟩ := List.countP_pos_iff.mp (by omega : 0 < rows1.countP (keyMatches d2))
    exact List.any_eq_true.mpr ⟨a, hmem, hpa⟩
  have hcount2 : (ArticleRepository.upsertRows isMysql rows1 d2 id2 t2).countP
      (keyMatches d1) = 1 := by
    simp only [ArticleRepository.upsertRows, hany2, if_true]
    rw [countP_map_pres (fun a => keyMatches_upsertStep isMysql d1 d2 t2 a)]
    exact h1
  refine ⟨hcount2, ?_⟩
  have hfind1 : ∃ r1, rows1.find? (keyMatches d1) = some r1 := by
    obtain ⟨a, hmem, hpa⟩ := List.countP_pos_iff.mp (by omega : 0 < rows1.countP (keyMatches d1))
    exact Option.isSome_iff_exists.mp (List.find?_isSome.mpr ⟨a, hmem, hpa⟩)
  obtain ⟨r1, hr1⟩ := hfind1
  have hkey1 : keyMatches d1 r1 = true := List.find?_some hr1
  have hkey1' : keyMatches d2 r1 = true := by rw [hk12 r1]; exact hkey1
  refine ⟨r1, if isMysql then mysqlOnDuplicateUpdate d2 t2 r1 else sqliteOnConflictUpdate d2 t2 r1,
    hr1, ?_, ?_, ?_⟩
  · show ArticleRepository.fetchByKey (ArticleRepository.upsertRows isMysql rows1 d2 id2 t2) d2 = _
    simp only [ArticleRepository.upsertRows, hany2, if_true, ArticleRepository.fetchByKey]
    rw [find?_map_pres (fun a => keyMatches_upsertStep isMysql d2 d2 t2 a)]
    rw [find?_congr_pw hk12, hr1]
    simp only [Option.map_some']
    rw [if_pos hkey1']
  · cases isMysql <;> rfl
  · cases isMysql <;> rfl

/-- C6 witness: upserting `sampleData` twice into an empty table (SQLite
branch, times 0 then 5) leaves one row with the key, same `id`, and
`updated_at = 5`. -/
theorem upsert_twice_single_row_witness :
    (ArticleRepository.upsertRows false
        (ArticleRepository.upsertRows false [] sampleData "01A" 0) sampleData "01B" 5).countP
      (keyMatches sampleData) = 1 ∧
    ∃ r1 r2,
      ArticleRepository.fetchByKey
        (ArticleRepository.upsertRows false [] sampleData "01A" 0) sampleData = some r1 ∧
      ArticleRepository.fetchByKey
        (ArticleRepository.upsertRows false
          (ArticleRepository.upsertRows false [] sampleData "01A" 0) sampleData "01B" 5)
        sampleData = some r2 ∧
      r2.id = r1.id ∧ r2.updated_at = 5 :=
  upsert_twice_single_row false [] sampleData sampleData "01A" "01B" 0 5 rfl rfl (by decide)

/-! ## C5 — pagination metadata -/

/-- C5: the route's `has_more` is `offset + returned < total` where `total`
counts all rows matching the same filters ignoring limit and offset; with
105 matching non-deleted articles, `limit=50, offset=0` gives `total = 105`
and `has_more = true`, while `offset=100, limit=50` returns at most 5 rows
and `has_more = false`. -/
theorem has_more_pagination :
    (∀ (rows : List Article) (f : ArticleRepository.ListFilters) (limit offset : Nat),
      (ArticlesRoute.list_articles rows f limit offset).2.total =
        (rows.filter (ArticleRepository.matchesFilters f)).length ∧
      ((ArticlesRoute.list_articles rows f limit offset).2.has_more = true ↔
        offset + (ArticlesRoute.list_articles rows f limit offset).1.length <
          (ArticlesRoute.list_articles rows f limit offset).2.total)) ∧
    (ArticlesRoute.list_articles rows105 defaultFilters 50 0).2.total = 105 ∧
    (ArticlesRoute.list_articles rows105 defaultFilters 50 0).2.has_more = true ∧
    (ArticlesRoute.list_articles rows105 defaultFilters 50 100).1.length ≤ 5 ∧
    (ArticlesRoute.list_articles rows105 defaultFilters 50 100).2.has_more = false := by
  have hfil : rows105.filter (ArticleRepository.matchesFilters defaultFilters) = rows105 := by
    apply List.filter_eq_self.mpr
    intro a ha
    rw [matchesFilters_default]
    obtain ⟨i, hi, rfl⟩ := List.mem_map.mp ha
    rfl
  have hlen : rows105.length = 105 := by simp [rows105]
  have hg : ∀ (rows : List Article) (f : ArticleRepository.ListFilters) (limit offset : Nat),
      (ArticlesRoute.list_articles rows f limit offset).2.total =
        (rows.filter (ArticleRepository.matchesFilters f)).length ∧
      ((ArticlesRoute.list_articles rows f limit offset).2.has_more = true ↔
        offset + (ArticlesRoute.list_articles rows f limit offset).1.length <
          (ArticlesRoute.list_articles rows f limit offset).2.total) := by
    intro rows f limit offset
    refine ⟨rfl, ?_⟩
    simp [ArticlesRoute.list_articles]
  have htot0 : (ArticlesRoute.list_articles rows105 defaultFilters 50 0).2.total = 105 := by
    rw [(hg rows105 defaultFilters 50 0).1, hfil, hlen]
  have htot100 : (ArticlesRoute.list_articles rows105 defaultFilters 50 100).2.total = 105 := by
    rw [(hg rows105 defaultFilters 50 100).1, hfil, hlen]
  have hlen0 : (ArticlesRoute.list_articles rows105 defaultFilters 50 0).1.length = 50 := by
    show (((sortByIdDesc (rows105.filter
      (ArticleRepository.matchesFilters defaultFilters))).drop 0).take 50).length = 50
    rw [List.length_take, List.length_drop, length_sortByIdDesc, hfil, hlen]
    norm_num
  have hlen100 : (ArticlesRoute.list_articles rows105 defaultFilters 50 100).1.length = 5 := by
    show (((sortByIdDesc (rows105.filter
      (ArticleRepository.matchesFilters defaultFilters))).drop 100).take 50).length = 5
    rw [List.length_take, List.length_drop, length_sortByIdDesc, hfil, hlen]
    norm_num
  refine ⟨hg, htot0, ?_, ?_, ?_⟩
  · apply (hg rows105 defaultFilters 50 0).2.mpr
    rw [hlen0, htot0]
    norm_num
  · rw [hlen100]
  · cases hv : (ArticlesRoute.list_articles rows105 defaultFilters 50 100).2.has_more
    · rfl
    · have := (hg rows105 defaultFilters 50 100).2.mp hv
      rw [hlen100, htot100] at this
      omega

/-! ## C4 / C8 — API-key authentication -/

/-- `update_last_used` leaves `get_by_key` pointing at the same row with
`last_used_at` set to `now`. -/
theorem get_by_key_update_last_used (keys : List ApiKey) (k : String) (now : Int)
    (ak : ApiKey) (h : ApiKeyRepository.get_by_key keys k = some ak) :
    ApiKeyRepository.get_by_key (ApiKeyRepository.update_last_used keys k now) k =
      some { ak with last_used_at := some now } := by
  unfold ApiKeyRepository.update_last_used
  rw [h]
  unfold ApiKeyRepository.get_by_key at h ⊢
  have hpres : ∀ a : ApiKey,
      ((if a.key == k && a.is_active then { a with last_used_at := some now } else a).key == k &&
        (if a.key == k && a.is_active then
          { a with last_used_at := some now } else a).is_active) =
      (a.key == k && a.is_active) := by
    intro a
    by_cases hp : (a.key == k && a.is_active) = true
    · rw [if_pos hp]
    · rw [if_neg hp]
  rw [find?_map_pres hpres, h]
  simp only [Option.map_some']
  rw [if_pos (List.find?_some h)]

/-- C4 (amended): for a request supplying a **non-empty** `X-Api-Key` value
that does not resolve to an active key, the dependency fails with
401 "Invalid API key" and leaves the database untouched (no rate-limit row,
no `last_used_at` update); a non-empty key resolving to an active row whose
rate-limit check allows gets `last_used_at` set to now and the key string as
identity. -/
theorem api_key_auth_spec :
    ∀ (db : Db) (ip : Option String) (k : String) (now : Int),
      k ≠ "" →
      (ApiKeyRepository.get_by_key db.api_keys k = none →
        verify_api_key_or_guest db ip (some k) now =
          (Except.error ⟨401, "Invalid API key"⟩, db)) ∧
      (∀ ak, ApiKeyRepository.get_by_key db.api_keys k = some ak →
        (ApiKeyRateLimitRepository.check_and_increment
          (lookupAssoc db.api_key_rate_limits ak.id) ak.rate_limit_per_minute now).1 = true →
        (verify_api_key_or_guest db ip (some k) now).1 = Except.ok (some k) ∧
        ∃ ak', ApiKeyRepository.get_by_key
            ((verify_api_key_or_guest db ip (some k) now).2).api_keys k = some ak' ∧
          ak'.last_used_at = some now) := by
  intro db ip k now hk
  have htr : pyTruthy (some k) = true := by
    simp [pyTruthy, hk]
  constructor
  · intro hnone
    simp only [verify_api_key_or_guest, htr, if_true, Option.getD_some, hnone]
  · intro ak hak hres
    simp only [verify_api_key_or_guest, htr, if_true, Option.getD_some, hak, hres, if_true]
    refine ⟨trivial, { ak with last_used_at := some now }, ?_, rfl⟩
    exact get_by_key_update_last_used db.api_keys k now ak hak

/-- A sample active API key row and a database containing only it. -/
def sampleKeyRow : ApiKey :=
  { id := 1, key := "sk", name := "svc", rate_limit_per_minute := 60,
    is_active := true, created_at := 0, last_used_at := none }

def sampleDb : Db :=
  { api_keys := [sampleKeyRow], api_key_rate_limits := [], guest_rate_limits := [],
    settings := [] }

/-- C4 witness: in `sampleDb`, key "zz" gets 401 with the database unchanged,
and key "sk" authenticates with `last_used_at` recorded. -/
theorem api_key_auth_spec_witness :
    verify_api_key_or_guest sampleDb (some "ip") (some "zz") 0 =
      (Except.error ⟨401, "Invalid API key"⟩, sampleDb) ∧
    (verify_api_key_or_guest sampleDb (some "ip") (some "sk") 0).1 =
      Except.ok (some "sk") ∧
    ∃ ak', ApiKeyRepository.get_by_key
        ((verify_api_key_or_guest sampleDb (some "ip") (some "sk") 0).2).api_keys
        "sk" = some ak' ∧ ak'.last_used_at = some 0 := by
  refine ⟨?_, ?_⟩
  · exact (api_key_auth_spec sampleDb (some "ip") "zz" 0 (by decide)).1 (by decide)
  · exact (api_key_auth_spec sampleDb (some "ip") "sk" 0 (by decide)).2
      sampleKeyRow (by decide) (by decide)

/-- C4 (counterexample): the empty string is a supplied header value that
does not resolve to any active key, yet the dependency does not raise
401 "Invalid API key" — it answers the guest path's `ok none`. -/
theorem api_key_auth_empty_cex :
    ApiKeyRepository.get_by_key emptyDb.api_keys "" = none ∧
    (verify_api_key_or_guest emptyDb (some "1.2.3.4") (some "") 0).1 =
      Except.ok none := by
  exact ⟨rfl, rfl⟩

/-- C8: an empty-string `X-Api-Key` is falsy, so the dependency behaves
exactly as if no header had been sent (same result, same database effects),
and in particular never raises 401 "Invalid API key". -/
theorem empty_api_key_guest_path :
    ∀ (db : Db) (ip : Option String) (now : Int),
      verify_api_key_or_guest db ip (some "") now =
        verify_api_key_or_guest db ip none now ∧
      (verify_api_key_or_guest db ip (some "") now).1 ≠
        Except.error ⟨401, "Invalid API key"⟩ := by
  intro db ip now
  have hfalse : pyTruthy (some "") = false := rfl
  constructor
  · rfl
  · simp only [verify_api_key_or_guest, hfalse, Bool.false_eq_true, if_false]
    by_cases hg : SettingsRepository.get_bool db.settings GUEST_ACCESS_ENABLED true
    · simp only [hg, Bool.not_true, Bool.false_eq_true, if_false]
      split
      · simp
      · simp
    · have hgf : SettingsRepository.get_bool db.settings GUEST_ACCESS_ENABLED true = false := by
        cases hv : SettingsRepository.get_bool db.settings GUEST_ACCESS_ENABLED true
        · rfl
        · exact absurd hv hg
      simp [hgf]

/-! ## C7 — ULID migration identifiers -/

theorem length_base32Digits : ∀ (k n : Nat), (base32Digits k n).length = k := by
  intro k
  induction k with
  | zero => intro n; rfl
  | succ k ih =>
    intro n
    simp only [base32Digits, List.length_cons, ih]

/-- The Crockford alphabet is strictly increasing on digit values. -/
theorem crockfordChar_lt_fin :
    ∀ d e : Fin 32, d.val < e.val → crockfordChar d.val < crockfordChar e.val := by
  decide

theorem crockfordChar_lt {d e : Nat} (hd : d < 32) (he : e < 32) (h : d < e) :
    crockfordChar d < crockfordChar e :=
  crockfordChar_lt_fin ⟨d, hd⟩ ⟨e, he⟩ h

/-- Fixed-width most-significant-first base-32 encodings compare
lexicographically like the encoded numbers. -/
theorem base32Chars_lt :
    ∀ (k : Nat) {n m : Nat}, n < m → m < 32 ^ k →
      List.lt ((base32Digits k n).map crockfordChar)
        ((base32Digits k m).map crockfordChar) := by
  intro k
  induction k with
  | zero =>
    intro n m h hm
    simp only [pow_zero] at hm
    omega
  | succ k ih =>
    intro n m h hm
    have hB : 0 < 32 ^ k := pow_pos (by norm_num) k
    have hd2 : m / 32 ^ k < 32 := by
      rw [Nat.div_lt_iff_lt_mul hB]
      calc m < 32 ^ (k + 1) := hm
        _ = 32 * 32 ^ k := by ring
    have hd12 : n / 32 ^ k ≤ m / 32 ^ k := Nat.div_le_div_right h.le
    simp only [base32Digits, List.map_cons]
    rcases Nat.lt_or_ge (n / 32 ^ k) (m / 32 ^ k) with hlt | hge
    · exact List.lt.head _ _ (crockfordChar_lt (lt_of_le_of_lt hd12 hd2) hd2 hlt)
    · have heq : n / 32 ^ k = m / 32 ^ k := le_antisymm hd12 hge
      have hceq : crockfordChar (n / 32 ^ k) = crockfordChar (m / 32 ^ k) := by
        rw [heq]
      have e1 := Nat.div_add_mod n (32 ^ k)
      have e2 := Nat.div_add_mod m (32 ^ k)
      rw [heq] at e1
      have hmod : n % 32 ^ k < m % 32 ^ k := by omega
      exact List.lt.tail (by rw [hceq]; exact lt_irrefl _)
        (by rw [hceq]; exact lt_irrefl _)
        (ih hmod (Nat.mod_lt m hB))

/-- A strictly older ULID timestamp gives a strictly smaller 128-bit value,
whatever the random parts. -/
theorem ulid_value_lt {t1 t2 r1 r2 : Nat} (ht : t1 < t2)
    (hr1 : r1 < 2 ^ 80) (hr2 : r2 < 2 ^ 80) :
    t1 * 2 ^ 80 + r1 < t2 * 2 ^ 80 + r2 := by
  have h1 : t1 * 2 ^ 80 + r1 < (t1 + 1) * 2 ^ 80 := by
    rw [Nat.succ_mul]
    omega
  have h2 : (t1 + 1) * 2 ^ 80 ≤ t2 * 2 ^ 80 :=
    Nat.mul_le_mul_right _ (Nat.succ_le_of_lt ht)
  omega

/-- Any 48-bit timestamp and 80-bit randomness fit in 26 base-32 digits. -/
theorem ulid_value_bound {t r : Nat} (ht : t < 2 ^ 48) (hr : r < 2 ^ 80) :
    t * 2 ^ 80 + r < 32 ^ 26 := by
  have h1 : t * 2 ^ 80 + r < (t + 1) * 2 ^ 80 := by
    rw [Nat.succ_mul]
    omega
  have h2 : (t + 1) * 2 ^ 80 ≤ 2 ^ 48 * 2 ^ 80 :=
    Nat.mul_le_mul_right _ (Nat.succ_le_of_lt ht)
  have h3 : (2 : Nat) ^ 48 * 2 ^ 80 = 2 ^ 128 := by norm_num
  have h4 : (32 : Nat) ^ 26 = 2 ^ 130 := by norm_num
  have h5 : (2 : Nat) ^ 128 < 2 ^ 130 := by norm_num
  omega

/-- ULID strings with distinct in-range timestamps sort like the timestamps,
independent of the random bits. -/
theorem ulidString_lt {t1 t2 r1 r2 : Nat} (_ht1 : t1 < 2 ^ 48) (ht2 : t2 < 2 ^ 48)
    (hr1 : r1 < 2 ^ 80) (hr2 : r2 < 2 ^ 80) (h : t1 < t2) :
    ulidString t1 r1 < ulidString t2 r2 := by
  refine String.lt_iff_toList_lt.mpr ?_
  show (ulidChars t1 r1) < (ulidChars t2 r2)
  exact (List.lt_iff_lex_lt _ _).mp
    (base32Chars_lt 26 (ulid_value_lt h hr1 hr2) (ulid_value_bound ht2 hr2))

/-- C7 (amended): the migration builds each new identifier from the row's
`created_at` millisecond timestamp together with 80 fresh random bits (so it
is 26 characters long and a row with absent `created_at` gets one from the
current time instead of failing); identifiers of rows with distinct
timestamps sort lexically in the same relative order as `created_at`,
whatever random bits were drawn. -/
theorem migration_ulid_order :
    ∀ (t1 t2 nowMs r1 r2 : Nat),
      t1 < 2 ^ 48 → t2 < 2 ^ 48 → r1 < 2 ^ 80 → r2 < 2 ^ 80 →
      (migrationNewId (some t1) nowMs r1).length = 26 ∧
      migrationNewId none nowMs r1 = ulidString nowMs r1 ∧
      (t1 < t2 → migrationNewId (some t1) nowMs r1 < migrationNewId (some t2) nowMs r2) := by
  intro t1 t2 nowMs r1 r2 ht1 ht2 hr1 hr2
  refine ⟨?_, rfl, ?_⟩
  · show (ulidString t1 r1).length = 26
    simp [ulidString, ulidChars, String.length, length_base32Digits]
  · intro h
    exact ulidString_lt ht1 ht2 hr1 hr2 h

/-- C7 witness: timestamps 0 < 1 (random bits 0 and 2^80 − 1) give
lexically ordered 26-character identifiers. -/
theorem migration_ulid_order_witness :
    (migrationNewId (some 0) 0 0).length = 26 ∧
    migrationNewId (some 0) 0 0 < migrationNewId (some 1) 0 (2 ^ 80 - 1) := by
  have h := migration_ulid_order 0 1 0 0 (2 ^ 80 - 1)
    (by norm_num) (by norm_num) (by norm_num) (by norm_num)
  exact ⟨h.1, h.2.2 (by norm_num)⟩

/-- C7 (counterexample): with equal `created_at` (5 ms) but different random
bytes the migration produces different identifiers — the identifier is not a
deterministic function of `created_at` alone. -/
theorem migration_ulid_nondeterministic_cex :
    migrationNewId (some 5) 0 1 ≠ migrationNewId (some 5) 0 2 := by decide

/-- C8 witness: on the empty database the empty-string key behaves exactly
like an absent header. -/
theorem empty_api_key_guest_path_witness :
    verify_api_key_or_guest emptyDb (some "1.1.1.1") (some "") 0 =
      verify_api_key_or_guest emptyDb (some "1.1.1.1") none 0 :=
  (empty_api_key_guest_path emptyDb (some "1.1.1.1") 0).1
